import Mathlib

/-!
Shallow embedding of the StreamAlert CLI Athena/Glue table-management code
(`stream_alert_cli/athena/handler.py` and `stream_alert_cli/glue/helpers.py`)
and proofs about the behaviour its specification claims.

Modelling conventions:
* Python dictionaries are modelled as association lists (`List (String × _)`);
  real dicts have unique keys, and every dict iteration in the source is over
  `sorted(...)`, so list order only matters where the source sorts.
* Python strings are Lean `String`s; `sorted` on ASCII identifiers agrees with
  Lean's lexicographic `≤` on `String`.
* Collaborator functions that live outside the two source files
  (`FirehoseClient.firehose_log_name`, `FirehoseClient.sanitize_keys`,
  `helpers.logs_schema_to_athena_schema`, `helpers.add_partition_statement`,
  `FirehoseClient.load_enabled_log_sources`, the `AthenaClient` / Glue client
  methods, `continue_prompt`, and the synthetic alerts schema) are abstracted
  as fields of an environment record `Env`; all theorems quantify over every
  possible behaviour of these collaborators.
* Exceptions a Python expression can raise (`ValueError` from tuple unpacking,
  `KeyError` from a missing dict key) are modelled with `Except`.
* Observable effects are collected in a result record: the sequence of client
  calls issued, files written, the final configuration object and whether
  `config.write()` was called.
-/

/-- Value of one entry of an Athena schema dictionary.  The source code
(`_construct_create_table_statement`) distinguishes three shapes with
`isinstance`: `str` values, `dict` values (rendered as `struct<...>`), and
anything else (silently skipped).  A `dict` value's sub-values are never
themselves inspected by any code in the repository — they are only passed
through `'{0}:{1}'.format`, i.e. string-formatted — so each sub-value is
modelled directly by its Python string form.  Likewise `other` carries the
Python string form of a value that is neither a `str` nor a `dict`. -/
inductive AthenaVal where
  | str : String → AthenaVal
  | struct : List (String × String) → AthenaVal
  | other : String → AthenaVal
deriving DecidableEq

/-- Lexicographic comparison of character lists by code point, the order
Python's `sorted` uses on the (ASCII) identifier strings this code sorts. -/
def charListLe : List Char → List Char → Bool
  | [], _ => true
  | _ :: _, [] => false
  | a :: as, b :: bs =>
    if a.toNat < b.toNat then true
    else if b.toNat < a.toNat then false
    else charListLe as bs

/-- Lexicographic string comparison (Python `<=` on strings). -/
def strLe (a b : String) : Bool :=
  charListLe a.data b.data

/-- Sorting of an association list by key, modelling Python's
`for key_name in sorted(d.keys()): ... d[key_name] ...` iteration over a dict
(dict keys are unique, so iterating the pairs sorted by key is the same
thing).  Insertion sort is used because Python's `sorted` is a stable
comparison sort. -/
def sortByKey {α : Type} (m : List (String × α)) : List (String × α) :=
  List.insertionSort (fun a b => strLe a.1 b.1 = true) m

/-- Translation of the body of the `for key_name in sorted(schema.keys())`
loop of `_construct_create_table_statement`: a string value appends
`key_name key_type`; a dict value appends
`key_name struct<sub1:type1, ...>` with sub-keys sorted; any other value
appends nothing. -/
def schema_statement (schema : List (String × AthenaVal)) : List String :=
  (sortByKey schema).filterMap fun p =>
    match p.2 with
    | .str t => some (p.1 ++ " " ++ t)
    | .struct m =>
      some (p.1 ++ " struct<" ++
        String.intercalate ", " ((sortByKey m).map fun q => q.1 ++ ":" ++ q.2) ++ ">")
    | .other _ => none

/-- The module-level `CREATE_TABLE_STATEMENT` template of `handler.py`, with
its three format fields substituted. -/
def CREATE_TABLE_STATEMENT (table_name schema bucket : String) : String :=
  "CREATE EXTERNAL TABLE " ++ table_name ++ " (" ++ schema ++ ") " ++
  "PARTITIONED BY (dt string) " ++
  "STORED AS PARQUET " ++
  "LOCATION \x27s3://" ++ bucket ++ "/" ++ table_name ++ "/\x27"

/-- The module-level constant `MAX_QUERY_LENGTH` of `handler.py`. -/
def MAX_QUERY_LENGTH : Nat := 262144

/-- Translation of `_construct_create_table_statement`. -/
def construct_create_table_statement
    (schema : List (String × AthenaVal)) (table_name bucket : String) : String :=
  CREATE_TABLE_STATEMENT table_name (String.intercalate ", " (schema_statement schema)) bucket

example :
    construct_create_table_statement
      [("b", .str "string"), ("a", .struct [("y", "int"), ("x", "string")]),
       ("c", .other "frozenset()")]
      "tbl" "bkt" =
    "CREATE EXTERNAL TABLE tbl (a struct<x:string, y:int>, b string) " ++
    "PARTITIONED BY (dt string) STORED AS PARQUET LOCATION \x27s3://bkt/tbl/\x27" := by
  decide

/-- Python exceptions that expressions in the modelled code can raise. -/
inductive PyErr where
  | valueError : PyErr
  | keyError : String → PyErr
deriving DecidableEq

/-- One call issued to the external Athena query client. -/
inductive Call where
  | getTablePartitions : String → Call
  | dropTable : String → Call
  | checkTableExists : String → Call
  | runQuery : String → Call
  | dropAllTables : Call
deriving DecidableEq

/-- The slice of one `config['logs'][...]` entry that the modelled code
reads: its `schema` and its `configuration.envelope_keys`.  Python reaches
the envelope keys through two truthiness guards (`if configuration_options:`
and `if envelope_keys:`); a missing `configuration`, a missing
`envelope_keys`, and an empty `envelope_keys` dict behave identically, so
all three are modelled as the empty list. -/
structure LogInfo where
  schema : List (String × AthenaVal)
  envelopeKeys : List (String × AthenaVal)
deriving DecidableEq

/-- The slice of the loaded CLIConfig that the modelled code reads or
writes.  `acctPre` is `config['global']['account']['prefix']`,
`s3BucketSuffix` is `...firehose.s3_bucket_suffix` (`none` when absent),
`catalogName`/`catalogTablePre` are `...firehose.catalog_name` and
`...firehose.catalog_table_prefix`, and `buckets` is
`config['lambda']['athena_partition_refresh_config']['buckets']`. -/
structure Config where
  firehoseEnabled : Bool
  acctPre : String
  s3BucketSuffix : Option String
  catalogName : String
  catalogTablePre : String
  logs : List (String × LogInfo)
  buckets : List (String × String)
deriving DecidableEq

/-- Abstracted collaborators: every function the two source files call that
is defined outside them.  The client result fields model the external
query/catalog service; the pure fields model repository helpers that are not
part of the two source files (`firehose_log_name`, `sanitize_keys`,
`logs_schema_to_athena_schema`, `add_partition_statement`,
`load_enabled_log_sources`, the synthetic alerts schema, `continue_prompt`,
and the Glue `get_tables` listing).  Theorems quantify over all of these. -/
structure Env where
  firehoseLogName : String → String
  enabledLogs : List String
  sanitizeKeys : List (String × AthenaVal) → List (String × AthenaVal)
  logsSchemaToAthenaSchema : List (String × AthenaVal) → List (String × AthenaVal)
  alertsSchema : List (String × AthenaVal)
  addPartitionStatement : List String → String → String → String
  getTablePartitions : String → List String
  dropTable : String → Bool
  checkTableExists : String → Bool
  runQuery : String → Bool
  dropAllTablesResult : Bool
  continuePrompt : Bool
  getTables : List String

/-- Result of running one lifecycle operation of `handler.py`: the returned
value (or the exception that escaped), the client calls issued in order, the
local files written (name, content), the final configuration object, and
whether `config.write()` was called. -/
structure Run where
  result : Except PyErr Bool
  calls : List Call
  files : List (String × String)
  config : Config
  configWritten : Bool

/-- Equality of `Except` results is decidable; the standard library does
not ship this instance. -/
instance {ε α : Type} [DecidableEq ε] [DecidableEq α] :
    DecidableEq (Except ε α) := fun a b =>
  match a, b with
  | .ok x, .ok y =>
    if h : x = y then .isTrue (by rw [h]) else .isFalse (by simp [h])
  | .error x, .error y =>
    if h : x = y then .isTrue (by rw [h]) else .isFalse (by simp [h])
  | .ok _, .error _ => .isFalse (by simp)
  | .error _, .ok _ => .isFalse (by simp)

/-- Helper for `splitOnChar`: walk the characters, cutting at the
separator; `acc` holds the current piece reversed. -/
def splitOnCharAux (sep : Char) : List Char → List Char → List (List Char)
  | [], acc => [acc.reverse]
  | c :: cs, acc =>
    if c = sep then acc.reverse :: splitOnCharAux sep cs []
    else splitOnCharAux sep cs (c :: acc)

/-- Python `s.split(sep)` for a single-character separator (both splits in
the source, `'='` and `'_'`, use one-character separators).  Like Python,
`"".split(sep) == ['']` and adjacent separators yield empty pieces. -/
def splitOnChar (sep : Char) (s : String) : List String :=
  (splitOnCharAux sep s.data []).map String.mk

/-- Python `table.replace('_', ':', 1)`: replace the first underscore (if
any) by a colon. -/
def replaceFirstUnderscore (s : String) : String :=
  match splitOnChar '_' s with
  | [] => s
  | [x] => x
  | x :: rest => x ++ ":" ++ String.intercalate "_" rest

/-- Python dict assignment `d[k] = v` on an association list: replace the
entry when the key is present, otherwise append a new entry. -/
def dictSet (m : List (String × AthenaVal)) (k : String) (v : AthenaVal) :
    List (String × AthenaVal) :=
  if k ∈ m.map Prod.fst then m.map (fun p => if p.1 = k then (k, v) else p)
  else m ++ [(k, v)]

/-- Python string form of a schema value, as `'{0}'.format(value)` or a dict
repr would print it (dict entry order modelled as list order; no theorem
depends on the non-`str` cases). -/
def valStr : AthenaVal → String
  | .str s => s
  | .struct m =>
    "\x7b" ++ String.intercalate ", "
      (m.map fun p => "\x27" ++ p.1 ++ "\x27: \x27" ++ p.2 ++ "\x27") ++ "\x7d"
  | .other r => r

/-- One iteration of the `for override in schema_override` loop of
`create_table`.  `column_name, column_type = override.split('=')` raises a
`ValueError` unless the split yields exactly two parts; otherwise the
backtick-quoted name is looked up in the Athena schema and either replaced
(info log) or skipped (error log).  The accumulator carries the schema and
the log messages emitted so far. -/
def applyOverride (acc : List (String × AthenaVal) × List String)
    (override : String) : Except PyErr (List (String × AthenaVal) × List String) :=
  match splitOnChar '=' override with
  | [column_name, column_type] =>
    let quoted := "`" ++ column_name ++ "`"
    if quoted ∈ acc.1.map Prod.fst then
      .ok (dictSet acc.1 quoted (.str column_type),
        acc.2 ++ ["Applied schema override: " ++ quoted ++ ":" ++ column_type])
    else
      .ok (acc.1,
        acc.2 ++ ["Schema override column " ++ quoted ++
          " not found in Athena Schema, skipping"])
  | _ => .error .valueError

/-- The whole `for override in schema_override` loop of `create_table`. -/
def applyOverrides (schema : List (String × AthenaVal)) (overrides : List String) :
    Except PyErr (List (String × AthenaVal) × List String) :=
  overrides.foldlM applyOverride (schema, [])

/-- The query-building part of `create_table` (everything between the
existence check and `athena_client.run_query`): the `alerts` branch derives
the schema from the synthetic alert record, the log-type branch reads
`config['logs'][table.replace('_', ':', 1)]` (raising `KeyError` when the
key is missing), sanitizes it, adds the envelope-keys struct column, and
applies the schema overrides.  The envelope value is the Athena schema of
the sanitized envelope keys, stored as a `dict` (struct) value. -/
def buildQuery (env : Env) (table bucket : String) (cfg : Config)
    (schema_override : List String) : Except PyErr String :=
  if table = "alerts" then
    .ok (construct_create_table_statement env.alertsSchema table bucket)
  else
    match cfg.logs.lookup (replaceFirstUnderscore table) with
    | none => .error (.keyError (replaceFirstUnderscore table))
    | some log_info =>
      let sanitized_schema := env.sanitizeKeys log_info.schema
      let athena_schema := env.logsSchemaToAthenaSchema sanitized_schema
      let athena_schema :=
        if log_info.envelopeKeys.isEmpty then athena_schema
        else
          dictSet athena_schema "`streamalert:envelope_keys`"
            (.struct ((env.logsSchemaToAthenaSchema
              (env.sanitizeKeys log_info.envelopeKeys)).map
                (fun p => (p.1, valStr p.2))))
      match applyOverrides athena_schema schema_override with
      | .error e => .error e
      | .ok (final_schema, _msgs) =>
        .ok (construct_create_table_statement final_schema
          (env.firehoseLogName table) bucket)

/-- Translation of `create_table(table, bucket, config, schema_override)`.
Control flow of the source, in order: the enabled-log guard
(`sanitized_table_name != 'alerts' and sanitized_table_name not in
enabled_logs` returns `False`), the existence check
(`athena_client.check_table_exists` returning truthy logs info and returns
`False`), the query construction (`buildQuery` above, which can raise), the
`run_query` call (falsy result logs an error and returns `False`), and on
success the conditional configuration update
(`buckets[bucket] = 'data'; config.write()` when the table is not `alerts`
and the bucket is not yet registered) before returning `True`. -/
def create_table (env : Env) (table bucket : String) (cfg : Config)
    (schema_override : List String) : Run :=
  let sanitized := env.firehoseLogName table
  if sanitized ≠ "alerts" ∧ sanitized ∉ env.enabledLogs then
    { result := .ok false, calls := [], files := [], config := cfg,
      configWritten := false }
  else if env.checkTableExists sanitized then
    { result := .ok false, calls := [.checkTableExists sanitized], files := [],
      config := cfg, configWritten := false }
  else
    match buildQuery env table bucket cfg schema_override with
    | .error e =>
      { result := .error e, calls := [.checkTableExists sanitized], files := [],
        config := cfg, configWritten := false }
    | .ok query =>
      if env.runQuery query then
        if table ≠ "alerts" ∧ bucket ∉ cfg.buckets.map Prod.fst then
          { result := .ok true,
            calls := [.checkTableExists sanitized, .runQuery query], files := [],
            config := { cfg with buckets := cfg.buckets ++ [(bucket, "data")] },
            configWritten := true }
        else
          { result := .ok true,
            calls := [.checkTableExists sanitized, .runQuery query], files := [],
            config := cfg, configWritten := false }
      else
        { result := .ok false,
          calls := [.checkTableExists sanitized, .runQuery query], files := [],
          config := cfg, configWritten := false }

/-- Translation of `rebuild_partitions(table, bucket, config)`: fetch the
current partitions (empty result returns `False`), drop the table (failure
returns `False`), re-create it via `create_table` (failure or exception
aborts), regenerate the `ALTER TABLE ADD PARTITION` statement, write it to
`partitions_<sanitized>.txt` and return `False` when it exceeds
`MAX_QUERY_LENGTH`, otherwise submit it with `run_query`. -/
def rebuild_partitions (env : Env) (table bucket : String) (cfg : Config) : Run :=
  let sanitized := env.firehoseLogName table
  let partitions := env.getTablePartitions sanitized
  if partitions.isEmpty then
    { result := .ok false, calls := [.getTablePartitions sanitized], files := [],
      config := cfg, configWritten := false }
  else if env.dropTable sanitized = false then
    { result := .ok false,
      calls := [.getTablePartitions sanitized, .dropTable sanitized], files := [],
      config := cfg, configWritten := false }
  else
    let ct := create_table env table bucket cfg []
    let callsSoFar := [Call.getTablePartitions sanitized, Call.dropTable sanitized] ++ ct.calls
    match ct.result with
    | .error e =>
      { result := .error e, calls := callsSoFar, files := ct.files,
        config := ct.config, configWritten := ct.configWritten }
    | .ok created =>
      if created = false then
        { result := .ok false, calls := callsSoFar, files := ct.files,
          config := ct.config, configWritten := ct.configWritten }
      else
        let new_partitions_statement :=
          env.addPartitionStatement partitions bucket sanitized
        if new_partitions_statement.length > MAX_QUERY_LENGTH then
          { result := .ok false, calls := callsSoFar,
            files := ct.files ++
              [("partitions_" ++ sanitized ++ ".txt", new_partitions_statement)],
            config := ct.config, configWritten := ct.configWritten }
        else if env.runQuery new_partitions_statement = false then
          { result := .ok false,
            calls := callsSoFar ++ [.runQuery new_partitions_statement],
            files := ct.files, config := ct.config, configWritten := ct.configWritten }
        else
          { result := .ok true,
            calls := callsSoFar ++ [.runQuery new_partitions_statement],
            files := ct.files, config := ct.config, configWritten := ct.configWritten }

/-- Translation of `drop_all_tables(config)`: interactive confirmation
first (declining returns `False` with no client call), then the client's
`drop_all_tables` call, whose result decides the report. -/
def drop_all_tables (env : Env) (cfg : Config) : Run :=
  if env.continuePrompt = false then
    { result := .ok false, calls := [], files := [], config := cfg,
      configWritten := false }
  else if env.dropAllTablesResult = false then
    { result := .ok false, calls := [.dropAllTables], files := [], config := cfg,
      configWritten := false }
  else
    { result := .ok true, calls := [.dropAllTables], files := [], config := cfg,
      configWritten := false }

/-- Result of `create_log_tables`, whose Python return value can be the
bare `return` (Python `None`, modelled as `none`) as well as `True`. -/
structure RunN where
  result : Except PyErr (Option Bool)
  calls : List Call
  files : List (String × String)
  config : Config
  configWritten : Bool

/-- The `for log_stream_name, _ in enabled_logs.iteritems()` loop of
`create_log_tables`: each iteration calls `create_table` with the firehose
bucket and no override, ignoring its boolean result; an exception escaping
`create_table` aborts the loop.  The configuration object is threaded
because a successful `create_table` can register a bucket in it. -/
def create_log_tables_loop (env : Env) (bucketName : String) :
    List String → Config → RunN
  | [], cfg =>
    { result := .ok (some true), calls := [], files := [], config := cfg,
      configWritten := false }
  | log :: rest, cfg =>
    let ct := create_table env log bucketName cfg []
    match ct.result with
    | .error e =>
      { result := .error e, calls := ct.calls, files := ct.files,
        config := ct.config, configWritten := ct.configWritten }
    | .ok _ =>
      let r := create_log_tables_loop env bucketName rest ct.config
      { result := r.result, calls := ct.calls ++ r.calls,
        files := ct.files ++ r.files, config := r.config,
        configWritten := ct.configWritten || r.configWritten }

/-- Translation of `create_log_tables(config)`: a bare `return` (None) when
the Firehose feature is not enabled, otherwise one `create_table` per
enabled log source against the firehose S3 bucket, then `return True`. -/
def create_log_tables (env : Env) (cfg : Config) : RunN :=
  if cfg.firehoseEnabled = false then
    { result := .ok none, calls := [], files := [], config := cfg,
      configWritten := false }
  else
    let bucketName := cfg.acctPre ++ "." ++ cfg.s3BucketSuffix.getD "streamalert.data"
    create_log_tables_loop env bucketName env.enabledLogs cfg

/-- Python `sorted(d)` on a dict: the sorted list of its keys. -/
def sortedKeys {α : Type} (m : List (String × α)) : List String :=
  List.insertionSort (fun a b => strLe a b = true) (m.map Prod.fst)

/-- The `TableInput` payload handed to the Glue catalog client by
`create_log_format_tables`: the table name and its
`StorageDescriptor.Columns` list of (`Name`, `Type`) records. -/
structure TableInput where
  name : String
  columns : List (String × String)
deriving DecidableEq

/-- One call issued to the external Glue catalog client. -/
inductive GlueCall where
  | getTables : String → GlueCall
  | createTable : String → TableInput → GlueCall
deriving DecidableEq

/-- Result of running `create_log_format_tables`: returned value (or
escaped exception) and the catalog-client calls issued in order. -/
structure GlueRun where
  result : Except PyErr Bool
  gcalls : List GlueCall

/-- The `for log_table in enabled_logs` loop of `create_log_format_tables`:
a log whose prefixed name is already catalogued is skipped (info log), any
other log has its config entry read (a missing entry raises `KeyError`),
its schema sanitized, and a flat all-`string` column list built from the
sorted keys for the `create_table` catalog call. -/
def glue_loop (env : Env) (cfg : Config) (db pre : String)
    (catalogTables : List String) : List String → List GlueCall × Option PyErr
  | [] => ([], none)
  | log :: rest =>
    if (pre ++ log) ∈ catalogTables then
      glue_loop env cfg db pre catalogTables rest
    else
      match cfg.logs.lookup (replaceFirstUnderscore log) with
      | none => ([], some (.keyError (replaceFirstUnderscore log)))
      | some log_info =>
        let sanitized_schema := env.sanitizeKeys log_info.schema
        let columns := (sortedKeys sanitized_schema).map (fun k => (k, "string"))
        let rec_rest := glue_loop env cfg db pre catalogTables rest
        (GlueCall.createTable db { name := pre ++ log, columns := columns } :: rec_rest.1,
          rec_rest.2)

/-- Translation of `create_log_format_tables(config)` from
`stream_alert_cli/glue/helpers.py`: list the existing catalog tables once
(`glue_client.get_tables`), then run the per-log loop, then `return True`
(unless an exception escaped the loop). -/
def create_log_format_tables (env : Env) (cfg : Config) : GlueRun :=
  let db := cfg.catalogName
  let pre := cfg.catalogTablePre
  let catalog_tables := env.getTables
  let looped := glue_loop env cfg db pre catalog_tables env.enabledLogs
  { gcalls := GlueCall.getTables db :: looped.1,
    result := match looped.2 with
      | some er => .error er
      | none => .ok true }

/-- A concrete environment and configuration used by the worked examples
and by several witnesses: one enabled log `my_log` whose schema has two
plain columns, the table does not yet exist, and every client call
succeeds. -/
def sampleEnv : Env :=
  { firehoseLogName := fun s => s
    enabledLogs := ["my_log"]
    sanitizeKeys := fun s => s
    logsSchemaToAthenaSchema := fun s => s
    alertsSchema := [("id", .str "string")]
    addPartitionStatement := fun _ _ _ => "ALTER TABLE my_log ADD PARTITION ..."
    getTablePartitions := fun _ => ["dt=2018-01-01-01"]
    dropTable := fun _ => true
    checkTableExists := fun _ => false
    runQuery := fun _ => true
    dropAllTablesResult := true
    continuePrompt := true
    getTables := [] }

/-- Sample configuration cooperating with `sampleEnv`. -/
def sampleCfg : Config :=
  { firehoseEnabled := true
    acctPre := "acme"
    s3BucketSuffix := none
    catalogName := "catalog"
    catalogTablePre := "pre_"
    logs := [("my:log", { schema := [("b", .str "string"), ("a", .str "integer")],
                          envelopeKeys := [] })]
    buckets := [] }

example :
    (create_table sampleEnv "my_log" "bkt" sampleCfg []).result = .ok true := by
  decide

example :
    (create_table sampleEnv "my_log" "bkt" sampleCfg []).calls =
      [.checkTableExists "my_log",
       .runQuery ("CREATE EXTERNAL TABLE my_log (a integer, b string) " ++
         "PARTITIONED BY (dt string) STORED AS PARQUET " ++
         "LOCATION \x27s3://bkt/my_log/\x27")] := by
  decide

example :
    (create_table sampleEnv "my_log" "bkt" sampleCfg []).config.buckets =
      [("bkt", "data")] := by
  decide

example :
    (create_table sampleEnv "my_log" "bkt" sampleCfg ["a=bigint"]).calls =
      [.checkTableExists "my_log",
       .runQuery ("CREATE EXTERNAL TABLE my_log (a integer, b string) " ++
         "PARTITIONED BY (dt string) STORED AS PARQUET " ++
         "LOCATION \x27s3://bkt/my_log/\x27")] := by
  decide

/-- Variant of `sampleEnv` whose schema translation wraps column names in
backticks, as the real `logs_schema_to_athena_schema` does; overrides can
then match. -/
def sampleEnvQ : Env :=
  { sampleEnv with
    logsSchemaToAthenaSchema := fun s => s.map (fun p => ("`" ++ p.1 ++ "`", p.2)) }

example :
    (create_table sampleEnvQ "my_log" "bkt" sampleCfg ["a=bigint"]).calls =
      [.checkTableExists "my_log",
       .runQuery ("CREATE EXTERNAL TABLE my_log (`a` bigint, `b` string) " ++
         "PARTITIONED BY (dt string) STORED AS PARQUET " ++
         "LOCATION \x27s3://bkt/my_log/\x27")] := by
  decide

example :
    (create_table sampleEnv "my_log" "bkt" sampleCfg ["nope"]).result =
      .error .valueError := by
  decide

example :
    (rebuild_partitions sampleEnv "my_log" "bkt" sampleCfg).result = .ok true := by
  decide

example :
    (create_log_format_tables sampleEnv sampleCfg).gcalls =
      [.getTables "catalog",
       .createTable "catalog"
         { name := "pre_my_log", columns := [("a", "string"), ("b", "string")] }] := by
  decide

/-- The code-point order on character lists is total. -/
theorem charListLe_total : ∀ as bs, charListLe as bs = true ∨ charListLe bs as = true := by
  intro as
  induction as with
  | nil => intro bs; left; rfl
  | cons a as ih =>
    intro bs
    cases bs with
    | nil => right; rfl
    | cons b bs =>
      rcases Nat.lt_trichotomy a.toNat b.toNat with h | h | h
      · left; simp [charListLe, h]
      · rcases ih bs with h2 | h2
        · left; simp [charListLe, h, h2]
        · right; simp [charListLe, h.symm, h2]
      · right; simp [charListLe, h]

/-- The code-point order on character lists is transitive. -/
theorem charListLe_trans :
    ∀ as bs cs, charListLe as bs = true → charListLe bs cs = true →
      charListLe as cs = true := by
  intro as
  induction as with
  | nil => intro bs cs h1 h2; rfl
  | cons a as ih =>
    intro bs cs h1 h2
    cases bs with
    | nil => simp [charListLe] at h1
    | cons b bs =>
      cases cs with
      | nil => simp [charListLe] at h2
      | cons c cs =>
        simp only [charListLe] at h1 h2 ⊢
        rcases Nat.lt_trichotomy a.toNat b.toNat with hab | hab | hab <;>
          rcases Nat.lt_trichotomy b.toNat c.toNat with hbc | hbc | hbc
        · simp [show a.toNat < c.toNat by omega]
        · simp [show a.toNat < c.toNat by omega]
        · simp [show ¬ b.toNat < c.toNat by omega, hbc] at h2
        · simp [show a.toNat < c.toNat by omega]
        · simp only [show ¬ a.toNat < b.toNat by omega,
            show ¬ b.toNat < a.toNat by omega, if_false, if_neg, ite_false] at h1
          simp only [show ¬ b.toNat < c.toNat by omega,
            show ¬ c.toNat < b.toNat by omega, if_false, if_neg, ite_false] at h2
          simp only [show ¬ a.toNat < c.toNat by omega,
            show ¬ c.toNat < a.toNat by omega, if_false, if_neg, ite_false]
          exact ih bs cs h1 h2
        · simp [show ¬ b.toNat < c.toNat by omega, hbc] at h2
        · simp [show ¬ a.toNat < b.toNat by omega, hab] at h1
        · simp [show ¬ a.toNat < b.toNat by omega, hab] at h1
        · simp [show ¬ a.toNat < b.toNat by omega, hab] at h1

instance : IsTotal String (fun a b => strLe a b = true) :=
  ⟨fun a b => charListLe_total a.data b.data⟩

instance : IsTrans String (fun a b => strLe a b = true) :=
  ⟨fun a b c => charListLe_trans a.data b.data c.data⟩

/-- Projecting the keys out of a by-key ordered insertion is an ordered
insertion of the key. -/
theorem map_fst_orderedInsert {α : Type} (p : String × α) (l : List (String × α)) :
    (List.orderedInsert (fun a b => strLe a.1 b.1 = true) p l).map Prod.fst =
      List.orderedInsert (fun a b => strLe a b = true) p.1 (l.map Prod.fst) := by
  induction l with
  | nil => rfl
  | cons q l ih =>
    simp only [List.orderedInsert, List.map]
    by_cases h : strLe p.1 q.1 = true
    · simp [h]
    · simp [h, ih]

/-- Projecting the keys out of the by-key sort sorts the keys. -/
theorem map_fst_sortByKey {α : Type} (m : List (String × α)) :
    (sortByKey m).map Prod.fst = sortedKeys m := by
  induction m with
  | nil => rfl
  | cons p m ih =>
    simp only [sortByKey, sortedKeys, List.insertionSort, List.map] at *
    rw [map_fst_orderedInsert, ih]

/-- Sorting by key permutes the entries. -/
theorem sortByKey_perm {α : Type} (m : List (String × α)) : (sortByKey m).Perm m :=
  List.perm_insertionSort _ m

/-- In an association list with no duplicate keys, lookup of a member
pair's key finds that pair's value. -/
theorem lookup_eq_some_of_mem_of_nodup {α : Type} {m : List (String × α)}
    {k : String} {v : α} (hnd : (m.map Prod.fst).Nodup) (hm : (k, v) ∈ m) :
    m.lookup k = some v := by
  induction m with
  | nil => cases hm
  | cons p m ih =>
    simp only [List.map, List.nodup_cons] at hnd
    rcases List.mem_cons.mp hm with heq | hm2
    · rw [← heq]
      simp [List.lookup]
    · have hk : ¬ (k == p.1) = true := by
        intro hbeq
        exact hnd.1 ((eq_of_beq hbeq) ▸ (List.mem_map.mpr ⟨(k, v), hm2, rfl⟩))
      obtain ⟨p1, p2⟩ := p
      simp only [List.lookup]
      rw [Bool.of_not_eq_true hk]
      exact ih hnd.2 hm2

/-- A `filterMap` whose function succeeds on every member is a `map`. -/
theorem filterMap_eq_map_of_all_some {α β : Type} {f : α → Option β} {h : α → β}
    {l : List α} (H : ∀ a ∈ l, f a = some (h a)) : l.filterMap f = l.map h := by
  induction l with
  | nil => rfl
  | cons a l ih =>
    rw [List.filterMap_cons, H a (List.mem_cons_self a l), List.map]
    rw [ih (fun x hx => H x (List.mem_cons_of_mem a hx))]

/-- Key-uniqueness condition on a single schema value: a `dict` (struct)
value carries no duplicate sub-keys.  Real Python dicts always satisfy
this. -/
def structKeysNodup : AthenaVal → Prop
  | .struct m => (m.map Prod.fst).Nodup
  | _ => True

instance : DecidablePred structKeysNodup := fun v =>
  match v with
  | .str _ => isTrue trivial
  | .struct m => decidable_of_iff ((m.map Prod.fst).Nodup) Iff.rfl
  | .other _ => isTrue trivial

/-- Column-list rendering procedure as worded by the specification claim:
enumerate the schema keys in lexicographic order; render a key whose value
is a string as `name type`; render a key whose value is a mapping as
`name struct<k1:t1, ...>` with the sub-keys again in lexicographic order;
omit every key whose value is neither; join the fragments with `, `. -/
def rendered_columns_claim (schema : List (String × AthenaVal)) : String :=
  String.intercalate ", " ((sortedKeys schema).filterMap fun k =>
    match schema.lookup k with
    | some (.str t) => some (k ++ " " ++ t)
    | some (.struct m) =>
      some (k ++ " struct<" ++
        String.intercalate ", " ((sortedKeys m).filterMap fun sk =>
          (m.lookup sk).map fun t => sk ++ ":" ++ t) ++ ">")
    | _ => none)

/-- C1: for every schema mapping given to the DDL renderer (no duplicate
keys, as for a real dict), the rendered column list enumerates the keys in
lexicographic order, rendering a string-valued entry as `name type`, a
mapping-valued entry as `name struct<k1:t1, ...>` with sub-keys also in
lexicographic order, omitting (without raising — the renderer is a total
function) every entry whose value is neither, joined by `, `: the renderer
of the source equals the rendering procedure worded by the claim, and the
key enumeration it uses is sorted. -/
theorem schema_statement_matches_claim (schema : List (String × AthenaVal))
    (hnd : (schema.map Prod.fst).Nodup)
    (hsub : ∀ p ∈ schema, structKeysNodup p.2) :
    String.intercalate ", " (schema_statement schema) = rendered_columns_claim schema ∧
    List.Sorted (fun a b => strLe a b = true) ((sortByKey schema).map Prod.fst) := by
  constructor
  · unfold rendered_columns_claim schema_statement
    apply congrArg
    rw [← map_fst_sortByKey, List.filterMap_map]
    apply List.filterMap_congr
    intro p hp
    have hpm : p ∈ schema := ((sortByKey_perm schema).mem_iff).mp hp
    have hlk : schema.lookup p.1 = some p.2 := lookup_eq_some_of_mem_of_nodup hnd hpm
    simp only [Function.comp]
    rw [hlk]
    cases hv : p.2 with
    | str t => rfl
    | struct m =>
      have hmnd : (m.map Prod.fst).Nodup := by
        have := hsub p hpm
        rw [hv] at this
        exact this
      have hinner :
          (sortedKeys m).filterMap (fun sk => (m.lookup sk).map fun t => sk ++ ":" ++ t) =
            (sortByKey m).map fun q => q.1 ++ ":" ++ q.2 := by
        rw [← map_fst_sortByKey, List.filterMap_map]
        apply filterMap_eq_map_of_all_some
        intro q hq
        have hqm : q ∈ m := ((sortByKey_perm m).mem_iff).mp hq
        have : m.lookup q.1 = some q.2 := lookup_eq_some_of_mem_of_nodup hmnd hqm
        simp only [Function.comp]
        rw [this]
        rfl
      dsimp only
      rw [hinner]
    | other r => rfl
  · rw [map_fst_sortByKey]
    exact List.sorted_insertionSort _ _

/-- Concrete schema exercising all three value shapes for the C1 witness. -/
def wSchema : List (String × AthenaVal) :=
  [("zeta", .str "string"), ("alpha", .struct [("y", "int"), ("x", "string")]),
   ("mid", .other "None")]

/-- Witness for C1 at a concrete schema. -/
theorem schema_statement_matches_claim_witness :
    ((wSchema.map Prod.fst).Nodup ∧ ∀ p ∈ wSchema, structKeysNodup p.2) ∧
    (String.intercalate ", " (schema_statement wSchema) = rendered_columns_claim wSchema ∧
     List.Sorted (fun a b => strLe a b = true) ((sortByKey wSchema).map Prod.fst)) :=
  ⟨⟨by decide, by decide⟩,
    schema_statement_matches_claim wSchema (by decide) (by decide)⟩

/-- Replacing the value at an existing key leaves the key list unchanged. -/
theorem map_fst_dictSet_of_mem {m : List (String × AthenaVal)} {k : String}
    (v : AthenaVal) (h : k ∈ m.map Prod.fst) :
    (dictSet m k v).map Prod.fst = m.map Prod.fst := by
  unfold dictSet
  rw [if_pos h, List.map_map]
  apply List.map_congr_left
  intro a _
  by_cases ha : a.1 = k
  · simp [Function.comp, ha]
  · simp [Function.comp, ha]

/-- Lookup of the replaced key in the entry-replacement map. -/
theorem lookup_map_set {m : List (String × AthenaVal)} {k : String} (v : AthenaVal)
    (h : k ∈ m.map Prod.fst) :
    (m.map fun p => if p.1 = k then (k, v) else p).lookup k = some v := by
  induction m with
  | nil => simp at h
  | cons p m ih =>
    simp only [List.map]
    by_cases hp : p.1 = k
    · rw [if_pos hp]
      simp [List.lookup]
    · rw [if_neg hp]
      have hk2 : k ∈ m.map Prod.fst := by
        simp only [List.map, List.mem_cons] at h
        rcases h with h | h
        · exact absurd h.symm hp
        · exact h
      obtain ⟨p1, p2⟩ := p
      simp only [List.lookup]
      rw [show (k == p1) = false from
        beq_eq_false_iff_ne.mpr (fun he => hp (by simp [he.symm]))]
      exact ih hk2

/-- Lookup of the new key after `dictSet` at a key already present. -/
theorem lookup_dictSet_self {m : List (String × AthenaVal)} {k : String}
    (v : AthenaVal) (h : k ∈ m.map Prod.fst) : (dictSet m k v).lookup k = some v := by
  unfold dictSet
  rw [if_pos h]
  exact lookup_map_set v h

/-- The entry-replacement map leaves lookups at other keys unchanged. -/
theorem lookup_map_set_ne (m : List (String × AthenaVal)) (k k2 : String)
    (v : AthenaVal) (hne : k2 ≠ k) :
    (m.map fun p => if p.1 = k then (k, v) else p).lookup k2 = m.lookup k2 := by
  induction m with
  | nil => rfl
  | cons p m ih =>
    simp only [List.map]
    by_cases hp : p.1 = k
    · rw [if_pos hp]
      obtain ⟨p1, p2⟩ := p
      simp only at hp
      subst hp
      simp only [List.lookup]
      rw [show (k2 == p1) = false from beq_eq_false_iff_ne.mpr hne]
      exact ih
    · rw [if_neg hp]
      obtain ⟨p1, p2⟩ := p
      simp only [List.lookup]
      cases hbeq : (k2 == p1) with
      | true => rfl
      | false => exact ih

/-- Appending a fresh entry leaves lookups at other keys unchanged. -/
theorem lookup_append_single_ne (m : List (String × AthenaVal)) (k k2 : String)
    (v : AthenaVal) (hne : k2 ≠ k) : (m ++ [(k, v)]).lookup k2 = m.lookup k2 := by
  induction m with
  | nil =>
    simp only [List.nil_append, List.lookup]
    rw [show (k2 == k) = false from beq_eq_false_iff_ne.mpr hne]
  | cons p m ih =>
    obtain ⟨p1, p2⟩ := p
    simp only [List.cons_append, List.lookup]
    cases hbeq : (k2 == p1) with
    | true => rfl
    | false => exact ih

/-- `dictSet` leaves lookups at other keys unchanged. -/
theorem lookup_dictSet_ne {m : List (String × AthenaVal)} {k k2 : String}
    (v : AthenaVal) (hne : k2 ≠ k) : (dictSet m k v).lookup k2 = m.lookup k2 := by
  unfold dictSet
  by_cases hmem : k ∈ m.map Prod.fst
  · rw [if_pos hmem]
    exact lookup_map_set_ne m k k2 v hne
  · rw [if_neg hmem]
    exact lookup_append_single_ne m k k2 v hne

/-- C6: for every schema_override entry processed by `create_table` that
parses as `name=ty`: when the backtick-quoted column name is a key of the
derived Athena schema its value is replaced by the override's type (with an
applied-override log), keeping the key set and every other entry; otherwise
the override is skipped with a log message and the schema is returned
unchanged. -/
theorem applyOverride_replaces_or_skips (schema : List (String × AthenaVal))
    (msgs : List String) (o name ty : String)
    (hsplit : splitOnChar '=' o = [name, ty]) :
    (("`" ++ name ++ "`") ∈ schema.map Prod.fst →
      ∃ schema2,
        applyOverride (schema, msgs) o = .ok (schema2,
          msgs ++ ["Applied schema override: " ++ ("`" ++ name ++ "`") ++ ":" ++ ty]) ∧
        schema2.lookup ("`" ++ name ++ "`") = some (.str ty) ∧
        schema2.map Prod.fst = schema.map Prod.fst ∧
        ∀ k, k ≠ "`" ++ name ++ "`" → schema2.lookup k = schema.lookup k) ∧
    (("`" ++ name ++ "`") ∉ schema.map Prod.fst →
      applyOverride (schema, msgs) o = .ok (schema,
        msgs ++ ["Schema override column " ++ ("`" ++ name ++ "`") ++
          " not found in Athena Schema, skipping"])) := by
  constructor
  · intro hmem
    refine ⟨dictSet schema ("`" ++ name ++ "`") (.str ty), ?_, ?_, ?_, ?_⟩
    · unfold applyOverride
      rw [hsplit]
      dsimp only
      rw [if_pos hmem]
    · exact lookup_dictSet_self _ hmem
    · exact map_fst_dictSet_of_mem _ hmem
    · intro k hk
      exact lookup_dictSet_ne _ hk
  · intro hmem
    unfold applyOverride
    rw [hsplit]
    dsimp only
    rw [if_neg hmem]

/-- Witness for C6 at a concrete schema and override, showing both the
replacement and the skip outcome. -/
theorem applyOverride_replaces_or_skips_witness :
    (∃ schema2,
      applyOverride ([("`a`", AthenaVal.str "string")], []) "a=bigint" =
        .ok (schema2, ["Applied schema override: `a`:bigint"]) ∧
      schema2.lookup "`a`" = some (.str "bigint")) ∧
    applyOverride ([("`a`", AthenaVal.str "string")], []) "zz=bigint" =
      .ok ([("`a`", AthenaVal.str "string")],
        ["Schema override column `zz` not found in Athena Schema, skipping"]) := by
  constructor
  · obtain ⟨s2, h1, h2, _, _⟩ :=
      (applyOverride_replaces_or_skips [("`a`", AthenaVal.str "string")] []
        "a=bigint" "a" "bigint" (by decide)).1 (by decide)
    exact ⟨s2, by simpa using h1, h2⟩
  · have :=
      (applyOverride_replaces_or_skips [("`a`", AthenaVal.str "string")] []
        "zz=bigint" "zz" "bigint" (by decide)).2 (by decide)
    simpa using this

/-- Exhaustive characterization of one `create_table` run: exactly one of
the six control-flow branches of the source applies, and each determines
the full observable result. -/
theorem create_table_cases (env : Env) (t b : String) (cfg : Config)
    (ov : List String) :
    (¬ env.firehoseLogName t = "alerts" ∧ env.firehoseLogName t ∉ env.enabledLogs ∧
      create_table env t b cfg ov = ⟨.ok false, [], [], cfg, false⟩) ∨
    (env.checkTableExists (env.firehoseLogName t) = true ∧
      create_table env t b cfg ov =
        ⟨.ok false, [.checkTableExists (env.firehoseLogName t)], [], cfg, false⟩) ∨
    (∃ e, env.checkTableExists (env.firehoseLogName t) = false ∧
      buildQuery env t b cfg ov = .error e ∧
      create_table env t b cfg ov =
        ⟨.error e, [.checkTableExists (env.firehoseLogName t)], [], cfg, false⟩) ∨
    (∃ q, env.checkTableExists (env.firehoseLogName t) = false ∧
      buildQuery env t b cfg ov = .ok q ∧ env.runQuery q = false ∧
      create_table env t b cfg ov =
        ⟨.ok false, [.checkTableExists (env.firehoseLogName t), .runQuery q], [],
          cfg, false⟩) ∨
    (∃ q, env.checkTableExists (env.firehoseLogName t) = false ∧
      buildQuery env t b cfg ov = .ok q ∧ env.runQuery q = true ∧
      t ≠ "alerts" ∧ b ∉ cfg.buckets.map Prod.fst ∧
      create_table env t b cfg ov =
        ⟨.ok true, [.checkTableExists (env.firehoseLogName t), .runQuery q], [],
          { cfg with buckets := cfg.buckets ++ [(b, "data")] }, true⟩) ∨
    (∃ q, env.checkTableExists (env.firehoseLogName t) = false ∧
      buildQuery env t b cfg ov = .ok q ∧ env.runQuery q = true ∧
      ¬ (t ≠ "alerts" ∧ b ∉ cfg.buckets.map Prod.fst) ∧
      create_table env t b cfg ov =
        ⟨.ok true, [.checkTableExists (env.firehoseLogName t), .runQuery q], [],
          cfg, false⟩) := by
  unfold create_table
  by_cases h1 : env.firehoseLogName t ≠ "alerts" ∧ env.firehoseLogName t ∉ env.enabledLogs
  · rw [if_pos h1]
    exact Or.inl ⟨h1.1, h1.2, rfl⟩
  · rw [if_neg h1]
    by_cases h2 : env.checkTableExists (env.firehoseLogName t) = true
    · rw [if_pos h2]
      exact Or.inr (Or.inl ⟨h2, rfl⟩)
    · rw [if_neg h2]
      have h2f : env.checkTableExists (env.firehoseLogName t) = false := by
        simpa using h2
      cases hbq : buildQuery env t b cfg ov with
      | error e =>
        dsimp only
        exact Or.inr (Or.inr (Or.inl ⟨e, h2f, rfl, rfl⟩))
      | ok q =>
        dsimp only
        by_cases h3 : env.runQuery q = true
        · rw [if_pos h3]
          by_cases h4 : t ≠ "alerts" ∧ b ∉ cfg.buckets.map Prod.fst
          · rw [if_pos h4]
            exact Or.inr (Or.inr (Or.inr (Or.inr (Or.inl
              ⟨q, h2f, rfl, h3, h4.1, h4.2, rfl⟩))))
          · rw [if_neg h4]
            exact Or.inr (Or.inr (Or.inr (Or.inr (Or.inr
              ⟨q, h2f, rfl, h3, h4, rfl⟩))))
        · rw [if_neg h3]
          have h3f : env.runQuery q = false := by simpa using h3
          exact Or.inr (Or.inr (Or.inr (Or.inl ⟨q, h2f, rfl, h3f, rfl⟩)))

/-- C7: whenever the external client's existence check reports that the
sanitized table already exists, `create_table` returns failure, never calls
`run_query`, and leaves the configuration untouched and unwritten. -/
theorem create_table_existing_table_noop (env : Env) (t b : String) (cfg : Config)
    (ov : List String)
    (hex : env.checkTableExists (env.firehoseLogName t) = true) :
    (create_table env t b cfg ov).result = .ok false ∧
    (∀ q, Call.runQuery q ∉ (create_table env t b cfg ov).calls) ∧
    (create_table env t b cfg ov).config = cfg ∧
    (create_table env t b cfg ov).configWritten = false := by
  rcases create_table_cases env t b cfg ov with
    ⟨_, _, hr⟩ | ⟨_, hr⟩ | ⟨e, hf, _, _⟩ | ⟨q, hf, _, _, _⟩ |
    ⟨q, hf, _, _, _, _, _⟩ | ⟨q, hf, _, _, _, _⟩
  · rw [hr]
    refine ⟨rfl, ?_, rfl, rfl⟩
    intro q hq
    simp at hq
  · rw [hr]
    refine ⟨rfl, ?_, rfl, rfl⟩
    intro q hq
    simp at hq
  · rw [hf] at hex
    cases hex
  · rw [hf] at hex
    cases hex
  · rw [hf] at hex
    cases hex
  · rw [hf] at hex
    cases hex

/-- Environment for the C7 witness: the table already exists. -/
def existsEnv : Env :=
  { sampleEnv with checkTableExists := fun _ => true }

/-- Witness for C7 at a concrete run. -/
theorem create_table_existing_table_noop_witness :
    existsEnv.checkTableExists (existsEnv.firehoseLogName "my_log") = true ∧
    ((create_table existsEnv "my_log" "bkt" sampleCfg []).result = .ok false ∧
     (∀ q, Call.runQuery q ∉ (create_table existsEnv "my_log" "bkt" sampleCfg []).calls) ∧
     (create_table existsEnv "my_log" "bkt" sampleCfg []).config = sampleCfg ∧
     (create_table existsEnv "my_log" "bkt" sampleCfg []).configWritten = false) :=
  ⟨rfl, create_table_existing_table_noop existsEnv "my_log" "bkt" sampleCfg [] rfl⟩

/-- C8: the configuration is mutated and persisted (`config.write()`) if
and only if the CREATE query succeeded (`create_table` returns `True`), the
table argument is not `alerts`, and the bucket is not yet registered; the
mutation is exactly registering the bucket as `data`; on every other path
the configuration is returned unchanged and never written. -/
theorem create_table_config_update_iff (env : Env) (t b : String) (cfg : Config)
    (ov : List String) :
    ((create_table env t b cfg ov).configWritten = true ↔
      ((create_table env t b cfg ov).result = .ok true ∧ t ≠ "alerts" ∧
        b ∉ cfg.buckets.map Prod.fst)) ∧
    ((create_table env t b cfg ov).configWritten = true →
      (create_table env t b cfg ov).config =
        { cfg with buckets := cfg.buckets ++ [(b, "data")] } ∧
      (create_table env t b cfg ov).config ≠ cfg) ∧
    ((create_table env t b cfg ov).configWritten = false →
      (create_table env t b cfg ov).config = cfg) := by
  rcases create_table_cases env t b cfg ov with
    ⟨_, _, hr⟩ | ⟨_, hr⟩ | ⟨e, _, _, hr⟩ | ⟨q, _, _, _, hr⟩ |
    ⟨q, _, _, _, ha, hb, hr⟩ | ⟨q, _, _, _, h4, hr⟩
  · rw [hr]
    exact ⟨by simp, by simp, fun _ => rfl⟩
  · rw [hr]
    exact ⟨by simp, by simp, fun _ => rfl⟩
  · rw [hr]
    exact ⟨by simp, by simp, fun _ => rfl⟩
  · rw [hr]
    exact ⟨by simp, by simp, fun _ => rfl⟩
  · rw [hr]
    refine ⟨by simp [ha, hb], fun _ => ⟨rfl, ?_⟩, by simp⟩
    intro he
    have hlen := congrArg (fun c => c.buckets.length) he
    simp at hlen
  · rw [hr]
    refine ⟨?_, by simp, fun _ => rfl⟩
    constructor
    · intro h
      cases h
    · rintro ⟨_, hA, hB⟩
      exact absurd (And.intro hA hB) h4

/-- A list of length two is a two-element list. -/
theorem length_two_ex {l : List String} (h : l.length = 2) : ∃ a b, l = [a, b] := by
  cases l with
  | nil => simp at h
  | cons a t =>
    cases t with
    | nil => simp at h
    | cons b t2 =>
      cases t2 with
      | nil => exact ⟨a, b, rfl⟩
      | cons c t3 => simp at h

/-- An override whose `'='` split has exactly two pieces is processed
without an exception. -/
theorem applyOverride_ok (acc : List (String × AthenaVal) × List String)
    (o : String) (h : (splitOnChar '=' o).length = 2) :
    ∃ acc2, applyOverride acc o = .ok acc2 := by
  obtain ⟨x, y, hxy⟩ := length_two_ex h
  unfold applyOverride
  rw [hxy]
  dsimp only
  by_cases hm : ("`" ++ x ++ "`") ∈ acc.1.map Prod.fst
  · rw [if_pos hm]
    exact ⟨_, rfl⟩
  · rw [if_neg hm]
    exact ⟨_, rfl⟩

/-- The override fold succeeds when every override splits in two. -/
theorem foldlM_applyOverride_ok :
    ∀ (ov : List String) (acc : List (String × AthenaVal) × List String),
      (∀ o ∈ ov, (splitOnChar '=' o).length = 2) →
      ∃ r, List.foldlM applyOverride acc ov = .ok r := by
  intro ov
  induction ov with
  | nil => exact fun acc _ => ⟨acc, rfl⟩
  | cons o ov ih =>
    intro acc h
    obtain ⟨acc2, hacc2⟩ := applyOverride_ok acc o (h o (List.mem_cons_self o ov))
    obtain ⟨r, hr⟩ := ih acc2 (fun o2 ho2 => h o2 (List.mem_cons_of_mem o ho2))
    refine ⟨r, ?_⟩
    rw [List.foldlM_cons, hacc2]
    simpa using hr

/-- The override loop never raises when every override splits in two. -/
theorem applyOverrides_ne_error (schema : List (String × AthenaVal))
    (ov : List String) (h : ∀ o ∈ ov, (splitOnChar '=' o).length = 2) :
    ∀ e, applyOverrides schema ov ≠ .error e := by
  intro e he
  obtain ⟨r, hr⟩ := foldlM_applyOverride_ok ov (schema, []) h
  unfold applyOverrides at he
  rw [hr] at he
  cases he

/-- `buildQuery` never raises when every override splits in two and the
table's log configuration entry is present. -/
theorem buildQuery_ne_error (env : Env) (t b : String) (cfg : Config)
    (ov : List String)
    (hov : ∀ o ∈ ov, (splitOnChar '=' o).length = 2)
    (hlog : t ≠ "alerts" → (cfg.logs.lookup (replaceFirstUnderscore t)).isSome) :
    ∀ e, buildQuery env t b cfg ov ≠ .error e := by
  intro e hbq
  unfold buildQuery at hbq
  by_cases ht : t = "alerts"
  · rw [if_pos ht] at hbq
    cases hbq
  · rw [if_neg ht] at hbq
    obtain ⟨li, hli⟩ := Option.isSome_iff_exists.mp (hlog ht)
    rw [hli] at hbq
    dsimp only at hbq
    split at hbq
    next e1 heq =>
      exact applyOverrides_ne_error _ ov hov e1 heq
    next fs ms heq =>
      cases hbq

/-- C2 counterexample: `create_table` does raise on a documented path — a
schema override with no `'='` at all (split yields one piece) makes the
tuple unpacking raise a `ValueError` instead of returning a boolean. -/
theorem create_table_raises_on_malformed_override :
    (create_table sampleEnv "my_log" "bkt" sampleCfg ["badoverride"]).result =
      Except.error .valueError := by
  decide

/-- C2 amended: each override is parsed by an `'='` split; when every
override splits into exactly a column name and a type (and the enabled
table's log configuration entry exists), `create_table` raises nothing and
every outcome is delivered as a boolean return value. -/
theorem create_table_wellformed_overrides_return_bool (env : Env)
    (t b : String) (cfg : Config) (ov : List String)
    (hov : ∀ o ∈ ov, (splitOnChar '=' o).length = 2)
    (hlog : t ≠ "alerts" → (cfg.logs.lookup (replaceFirstUnderscore t)).isSome) :
    ∃ res, (create_table env t b cfg ov).result = .ok res := by
  rcases create_table_cases env t b cfg ov with
    ⟨_, _, hr⟩ | ⟨_, hr⟩ | ⟨e, _, hbq, _⟩ | ⟨q, _, _, _, hr⟩ |
    ⟨q, _, _, _, _, _, hr⟩ | ⟨q, _, _, _, _, hr⟩
  · exact ⟨false, by rw [hr]⟩
  · exact ⟨false, by rw [hr]⟩
  · exact absurd hbq (buildQuery_ne_error env t b cfg ov hov hlog e)
  · exact ⟨false, by rw [hr]⟩
  · exact ⟨true, by rw [hr]⟩
  · exact ⟨true, by rw [hr]⟩

/-- Witness for the amended C2 at a concrete run with one well-formed
override. -/
theorem create_table_wellformed_overrides_return_bool_witness :
    (∀ o ∈ ["a=bigint"], (splitOnChar '=' o).length = 2) ∧
    ("my_log" ≠ "alerts" →
      (sampleCfg.logs.lookup (replaceFirstUnderscore "my_log")).isSome) ∧
    ∃ res, (create_table sampleEnv "my_log" "bkt" sampleCfg ["a=bigint"]).result =
      .ok res :=
  ⟨by decide, by decide,
    create_table_wellformed_overrides_return_bool sampleEnv "my_log" "bkt"
      sampleCfg ["a=bigint"] (by decide) (by decide)⟩

/-- `create_table` writes no local files on any path. -/
theorem create_table_files_nil (env : Env) (t b : String) (cfg : Config)
    (ov : List String) : (create_table env t b cfg ov).files = [] := by
  rcases create_table_cases env t b cfg ov with
    ⟨_, _, hr⟩ | ⟨_, hr⟩ | ⟨e, _, _, hr⟩ | ⟨q, _, _, _, hr⟩ |
    ⟨q, _, _, _, _, _, hr⟩ | ⟨q, _, _, _, _, hr⟩ <;> rw [hr]

/-- A `create_table` run that returns `True` made exactly the existence
check and one successful `run_query` call with the built CREATE query. -/
theorem create_table_ok_true_shape (env : Env) (t b : String) (cfg : Config)
    (ov : List String) (h : (create_table env t b cfg ov).result = .ok true) :
    ∃ q, (create_table env t b cfg ov).calls =
      [.checkTableExists (env.firehoseLogName t), .runQuery q] ∧
      buildQuery env t b cfg ov = .ok q ∧ env.runQuery q = true := by
  rcases create_table_cases env t b cfg ov with
    ⟨_, _, hr⟩ | ⟨_, hr⟩ | ⟨e, _, _, hr⟩ | ⟨q, _, _, _, hr⟩ |
    ⟨q, _, hbq, hrq, _, _, hr⟩ | ⟨q, _, hbq, hrq, _, hr⟩
  · rw [hr] at h
    simp at h
  · rw [hr] at h
    simp at h
  · rw [hr] at h
    simp at h
  · rw [hr] at h
    simp at h
  · rw [hr]
    exact ⟨q, rfl, hbq, hrq⟩
  · rw [hr]
    exact ⟨q, rfl, hbq, hrq⟩

/-- C4: when the drop succeeds but the re-creation fails,
`rebuild_partitions` returns failure immediately: the call trace ends with
`create_table`'s calls (no further client call, no compensating
re-creation), no file is written, and the configuration state is whatever
`create_table` left. -/
theorem rebuild_create_failure_aborts (env : Env) (t b : String) (cfg : Config)
    (h1 : (env.getTablePartitions (env.firehoseLogName t)).isEmpty = false)
    (h2 : env.dropTable (env.firehoseLogName t) = true)
    (h3 : (create_table env t b cfg []).result = .ok false) :
    (rebuild_partitions env t b cfg).result = .ok false ∧
    (rebuild_partitions env t b cfg).calls =
      [.getTablePartitions (env.firehoseLogName t),
       .dropTable (env.firehoseLogName t)] ++ (create_table env t b cfg []).calls ∧
    (rebuild_partitions env t b cfg).files = [] ∧
    (rebuild_partitions env t b cfg).config = (create_table env t b cfg []).config ∧
    (rebuild_partitions env t b cfg).configWritten =
      (create_table env t b cfg []).configWritten := by
  unfold rebuild_partitions
  dsimp only
  rw [if_neg (show ¬ ((env.getTablePartitions (env.firehoseLogName t)).isEmpty = true)
    from by simp [h1])]
  rw [if_neg (show ¬ (env.dropTable (env.firehoseLogName t) = false) from by simp [h2])]
  rw [h3]
  dsimp only
  rw [if_pos rfl]
  exact ⟨rfl, rfl, create_table_files_nil env t b cfg [], rfl, rfl⟩

/-- Witness for C4 at a concrete run where the re-created table already
exists, so the inner `create_table` fails. -/
theorem rebuild_create_failure_aborts_witness :
    ((existsEnv.getTablePartitions (existsEnv.firehoseLogName "my_log")).isEmpty = false ∧
     existsEnv.dropTable (existsEnv.firehoseLogName "my_log") = true ∧
     (create_table existsEnv "my_log" "bkt" sampleCfg []).result = .ok false) ∧
    ((rebuild_partitions existsEnv "my_log" "bkt" sampleCfg).result = .ok false ∧
     (rebuild_partitions existsEnv "my_log" "bkt" sampleCfg).calls =
       [.getTablePartitions (existsEnv.firehoseLogName "my_log"),
        .dropTable (existsEnv.firehoseLogName "my_log")] ++
         (create_table existsEnv "my_log" "bkt" sampleCfg []).calls ∧
     (rebuild_partitions existsEnv "my_log" "bkt" sampleCfg).files = [] ∧
     (rebuild_partitions existsEnv "my_log" "bkt" sampleCfg).config =
       (create_table existsEnv "my_log" "bkt" sampleCfg []).config ∧
     (rebuild_partitions existsEnv "my_log" "bkt" sampleCfg).configWritten =
       (create_table existsEnv "my_log" "bkt" sampleCfg []).configWritten) :=
  ⟨⟨by decide, by decide, by decide⟩,
    rebuild_create_failure_aborts existsEnv "my_log" "bkt" sampleCfg
      (by decide) (by decide) (by decide)⟩

/-- C3: when the run reaches the length check (partitions found, drop and
re-create succeeded) and the regenerated ALTER statement exceeds
`MAX_QUERY_LENGTH`, the statement is written verbatim to
`partitions_<sanitized>.txt`, the operation returns failure, and the
statement is never submitted: the only `run_query` call of the whole run is
the CREATE query of the re-creation step, and nothing follows it. -/
theorem rebuild_oversized_statement_fallback (env : Env) (t b : String)
    (cfg : Config)
    (h1 : (env.getTablePartitions (env.firehoseLogName t)).isEmpty = false)
    (h2 : env.dropTable (env.firehoseLogName t) = true)
    (h3 : (create_table env t b cfg []).result = .ok true)
    (h4 : (env.addPartitionStatement (env.getTablePartitions (env.firehoseLogName t)) b
      (env.firehoseLogName t)).length > MAX_QUERY_LENGTH) :
    (rebuild_partitions env t b cfg).result = .ok false ∧
    (rebuild_partitions env t b cfg).files =
      [("partitions_" ++ env.firehoseLogName t ++ ".txt",
        env.addPartitionStatement (env.getTablePartitions (env.firehoseLogName t)) b
          (env.firehoseLogName t))] ∧
    ∃ q, (rebuild_partitions env t b cfg).calls =
      [.getTablePartitions (env.firehoseLogName t),
       .dropTable (env.firehoseLogName t),
       .checkTableExists (env.firehoseLogName t), .runQuery q] ∧
      buildQuery env t b cfg [] = .ok q ∧ env.runQuery q = true := by
  obtain ⟨q, hcalls, hbq, hrq⟩ := create_table_ok_true_shape env t b cfg [] h3
  unfold rebuild_partitions
  dsimp only
  rw [if_neg (show ¬ ((env.getTablePartitions (env.firehoseLogName t)).isEmpty = true)
    from by simp [h1])]
  rw [if_neg (show ¬ (env.dropTable (env.firehoseLogName t) = false) from by simp [h2])]
  rw [h3]
  dsimp only
  rw [if_neg (show ¬ (true = false) from by simp)]
  rw [if_pos h4]
  refine ⟨rfl, ?_, q, ?_, hbq, hrq⟩
  · simp [create_table_files_nil]
  · simp [hcalls]

/-- A 262145-character statement, one character over the query ceiling. -/
def bigStmt : String :=
  String.mk (List.replicate 262145 'x')

/-- The oversized statement really exceeds the ceiling. -/
theorem bigStmt_length : bigStmt.length > MAX_QUERY_LENGTH := by
  show (String.mk (List.replicate 262145 'x')).length > MAX_QUERY_LENGTH
  show (List.replicate 262145 'x').length > MAX_QUERY_LENGTH
  rw [List.length_replicate]
  decide

/-- Environment for the oversized-statement witnesses: everything succeeds
but the regenerated ALTER statement is one character too long. -/
def oversizeEnv : Env :=
  { sampleEnv with addPartitionStatement := fun _ _ _ => bigStmt }

/-- Witness for C3 at a concrete oversized run. -/
theorem rebuild_oversized_statement_fallback_witness :
    ((oversizeEnv.getTablePartitions (oversizeEnv.firehoseLogName "my_log")).isEmpty = false ∧
     oversizeEnv.dropTable (oversizeEnv.firehoseLogName "my_log") = true ∧
     (create_table oversizeEnv "my_log" "bkt" sampleCfg []).result = .ok true ∧
     (oversizeEnv.addPartitionStatement
       (oversizeEnv.getTablePartitions (oversizeEnv.firehoseLogName "my_log")) "bkt"
       (oversizeEnv.firehoseLogName "my_log")).length > MAX_QUERY_LENGTH) ∧
    ((rebuild_partitions oversizeEnv "my_log" "bkt" sampleCfg).result = .ok false ∧
     (rebuild_partitions oversizeEnv "my_log" "bkt" sampleCfg).files =
       [("partitions_" ++ oversizeEnv.firehoseLogName "my_log" ++ ".txt",
         oversizeEnv.addPartitionStatement
           (oversizeEnv.getTablePartitions (oversizeEnv.firehoseLogName "my_log")) "bkt"
           (oversizeEnv.firehoseLogName "my_log"))] ∧
     ∃ q, (rebuild_partitions oversizeEnv "my_log" "bkt" sampleCfg).calls =
       [.getTablePartitions (oversizeEnv.firehoseLogName "my_log"),
        .dropTable (oversizeEnv.firehoseLogName "my_log"),
        .checkTableExists (oversizeEnv.firehoseLogName "my_log"), .runQuery q] ∧
       buildQuery oversizeEnv "my_log" "bkt" sampleCfg [] = .ok q ∧
       oversizeEnv.runQuery q = true) :=
  ⟨⟨by decide, by decide, by decide, bigStmt_length⟩,
    rebuild_oversized_statement_fallback oversizeEnv "my_log" "bkt" sampleCfg
      (by decide) (by decide) (by decide) bigStmt_length⟩

/-- C10: whenever `rebuild_partitions` writes the fallback partitions file,
the original table had already been dropped (successfully) and re-created
(the inner `create_table` returned `True`, issuing its successful CREATE
query), the written content is the regenerated ALTER statement and exceeds
the ceiling, the operation returns failure, and the whole run's calls are
exactly fetch, drop, existence check and the CREATE query — only the ADD
PARTITION submission is withheld. -/
theorem rebuild_file_write_implies_drop_and_create (env : Env) (t b : String)
    (cfg : Config) (content : String)
    (hfile : ("partitions_" ++ env.firehoseLogName t ++ ".txt", content) ∈
      (rebuild_partitions env t b cfg).files) :
    env.dropTable (env.firehoseLogName t) = true ∧
    (create_table env t b cfg []).result = .ok true ∧
    content = env.addPartitionStatement (env.getTablePartitions (env.firehoseLogName t)) b
      (env.firehoseLogName t) ∧
    content.length > MAX_QUERY_LENGTH ∧
    (rebuild_partitions env t b cfg).result = .ok false ∧
    ∃ q, (rebuild_partitions env t b cfg).calls =
      [.getTablePartitions (env.firehoseLogName t),
       .dropTable (env.firehoseLogName t),
       .checkTableExists (env.firehoseLogName t), .runQuery q] ∧
      env.runQuery q = true := by
  unfold rebuild_partitions at hfile ⊢
  dsimp only at hfile ⊢
  by_cases hp : (env.getTablePartitions (env.firehoseLogName t)).isEmpty = true
  · rw [if_pos hp] at hfile
    simp at hfile
  · rw [if_neg hp] at hfile ⊢
    by_cases hd : env.dropTable (env.firehoseLogName t) = false
    · rw [if_pos hd] at hfile
      simp at hfile
    · rw [if_neg hd] at hfile ⊢
      rcases hres : (create_table env t b cfg []).result with e | created
      · rw [hres] at hfile
        dsimp only at hfile
        rw [create_table_files_nil] at hfile
        simp at hfile
      · cases created
        · rw [hres] at hfile
          dsimp only at hfile
          rw [if_pos rfl] at hfile
          rw [create_table_files_nil] at hfile
          simp at hfile
        · rw [hres] at hfile
          dsimp only at hfile ⊢
          rw [if_neg (show ¬ (true = false) from by simp)] at hfile ⊢
          by_cases hlen : (env.addPartitionStatement
              (env.getTablePartitions (env.firehoseLogName t)) b
              (env.firehoseLogName t)).length > MAX_QUERY_LENGTH
          · rw [if_pos hlen] at hfile ⊢
            rw [create_table_files_nil] at hfile
            simp only [List.nil_append, List.mem_singleton, Prod.mk.injEq,
              true_and] at hfile
            obtain ⟨q, hcalls, _, hrq⟩ := create_table_ok_true_shape env t b cfg [] hres
            refine ⟨by simpa using hd, rfl, hfile, ?_, rfl, q, ?_, hrq⟩
            · rw [hfile]
              exact hlen
            · simp [hcalls]
          · rw [if_neg hlen] at hfile
            by_cases hq : env.runQuery (env.addPartitionStatement
                (env.getTablePartitions (env.firehoseLogName t)) b
                (env.firehoseLogName t)) = false
            · rw [if_pos hq] at hfile
              rw [create_table_files_nil] at hfile
              simp at hfile
            · rw [if_neg hq] at hfile
              rw [create_table_files_nil] at hfile
              simp at hfile

/-- On the oversized path the fallback file is among the written files
(helper for instantiating the file-written premise at concrete inputs). -/
theorem rebuild_oversized_writes_file (env : Env) (t b : String) (cfg : Config)
    (h1 : (env.getTablePartitions (env.firehoseLogName t)).isEmpty = false)
    (h2 : env.dropTable (env.firehoseLogName t) = true)
    (h3 : (create_table env t b cfg []).result = .ok true)
    (h4 : (env.addPartitionStatement (env.getTablePartitions (env.firehoseLogName t)) b
      (env.firehoseLogName t)).length > MAX_QUERY_LENGTH) :
    ("partitions_" ++ env.firehoseLogName t ++ ".txt",
      env.addPartitionStatement (env.getTablePartitions (env.firehoseLogName t)) b
        (env.firehoseLogName t)) ∈ (rebuild_partitions env t b cfg).files := by
  unfold rebuild_partitions
  dsimp only
  rw [if_neg (show ¬ ((env.getTablePartitions (env.firehoseLogName t)).isEmpty = true)
    from by simp [h1])]
  rw [if_neg (show ¬ (env.dropTable (env.firehoseLogName t) = false) from by simp [h2])]
  rw [h3]
  dsimp only
  rw [if_neg (show ¬ (true = false) from by simp)]
  rw [if_pos h4]
  rw [create_table_files_nil]
  exact List.mem_singleton.mpr rfl

/-- Witness for C10 at a concrete oversized run. -/
theorem rebuild_file_write_implies_drop_and_create_witness :
    (("partitions_" ++ oversizeEnv.firehoseLogName "my_log" ++ ".txt", bigStmt) ∈
      (rebuild_partitions oversizeEnv "my_log" "bkt" sampleCfg).files) ∧
    (oversizeEnv.dropTable (oversizeEnv.firehoseLogName "my_log") = true ∧
     (create_table oversizeEnv "my_log" "bkt" sampleCfg []).result = .ok true ∧
     bigStmt = oversizeEnv.addPartitionStatement
       (oversizeEnv.getTablePartitions (oversizeEnv.firehoseLogName "my_log")) "bkt"
       (oversizeEnv.firehoseLogName "my_log") ∧
     bigStmt.length > MAX_QUERY_LENGTH ∧
     (rebuild_partitions oversizeEnv "my_log" "bkt" sampleCfg).result = .ok false ∧
     ∃ q, (rebuild_partitions oversizeEnv "my_log" "bkt" sampleCfg).calls =
       [.getTablePartitions (oversizeEnv.firehoseLogName "my_log"),
        .dropTable (oversizeEnv.firehoseLogName "my_log"),
        .checkTableExists (oversizeEnv.firehoseLogName "my_log"), .runQuery q] ∧
       oversizeEnv.runQuery q = true) := by
  have hfile : ("partitions_" ++ oversizeEnv.firehoseLogName "my_log" ++ ".txt", bigStmt) ∈
      (rebuild_partitions oversizeEnv "my_log" "bkt" sampleCfg).files :=
    rebuild_oversized_writes_file oversizeEnv "my_log" "bkt" sampleCfg
      (by decide) (by decide) (by decide) bigStmt_length
  exact ⟨hfile, rebuild_file_write_implies_drop_and_create oversizeEnv "my_log" "bkt"
    sampleCfg bigStmt hfile⟩

/-- Configuration with the Firehose feature disabled. -/
def disabledCfg : Config :=
  { sampleCfg with firehoseEnabled := false }

/-- C5 counterexample: with the Firehose feature disabled,
`create_log_tables` executes the bare `return` — its value is Python `None`,
not a boolean. -/
theorem create_log_tables_disabled_returns_none :
    (create_log_tables sampleEnv disabledCfg).result = .ok none ∧
    ∀ bl : Bool, (create_log_tables sampleEnv disabledCfg).result ≠ .ok (some bl) := by
  constructor
  · decide
  · decide

/-- The `create_log_tables` loop only ever returns `True` (when it returns
at all). -/
theorem create_log_tables_loop_ok (env : Env) (bucketName : String) :
    ∀ (logs : List String) (cfg : Config) (r : Option Bool),
      (create_log_tables_loop env bucketName logs cfg).result = .ok r →
      r = some true := by
  intro logs
  induction logs with
  | nil =>
    intro cfg r h
    simp only [create_log_tables_loop] at h
    exact (Except.ok.inj h).symm
  | cons log rest ih =>
    intro cfg r h
    simp only [create_log_tables_loop] at h
    rcases hres : (create_table env log bucketName cfg []).result with e | bl
    · rw [hres] at h
      dsimp only at h
      cases h
    · rw [hres] at h
      dsimp only at h
      exact ih _ r h

/-- C5 amended: `drop_all_tables` returns a boolean on every path;
`create_log_tables` performs no work and returns `None` — not a boolean —
when the Firehose feature is disabled, and returns `True` whenever it
returns at all with the feature enabled.  (`create_table` and
`rebuild_partitions` return booleans by construction on every non-raising
path.) -/
theorem lifecycle_return_values :
    (∀ (env : Env) (cfg : Config), ∃ bl, (drop_all_tables env cfg).result = .ok bl) ∧
    (∀ (env : Env) (cfg : Config), cfg.firehoseEnabled = false →
      create_log_tables env cfg =
        ⟨.ok none, [], [], cfg, false⟩) ∧
    (∀ (env : Env) (cfg : Config) (r : Option Bool), cfg.firehoseEnabled = true →
      (create_log_tables env cfg).result = .ok r → r = some true) := by
  refine ⟨?_, ?_, ?_⟩
  · intro env cfg
    unfold drop_all_tables
    by_cases h1 : env.continuePrompt = false
    · rw [if_pos h1]
      exact ⟨false, rfl⟩
    · rw [if_neg h1]
      by_cases h2 : env.dropAllTablesResult = false
      · rw [if_pos h2]
        exact ⟨false, rfl⟩
      · rw [if_neg h2]
        exact ⟨true, rfl⟩
  · intro env cfg h
    unfold create_log_tables
    rw [if_pos h]
  · intro env cfg r h hr
    unfold create_log_tables at hr
    rw [if_neg (by simp [h])] at hr
    exact create_log_tables_loop_ok env _ env.enabledLogs cfg r hr

/-- Witness for the amended C5 at concrete runs. -/
theorem lifecycle_return_values_witness :
    (∃ bl, (drop_all_tables sampleEnv sampleCfg).result = .ok bl) ∧
    create_log_tables sampleEnv disabledCfg =
      ⟨Except.ok none, [], [], disabledCfg, false⟩ ∧
    (some true : Option Bool) = some true :=
  ⟨lifecycle_return_values.1 sampleEnv sampleCfg,
   lifecycle_return_values.2.1 sampleEnv disabledCfg rfl,
   lifecycle_return_values.2.2 sampleEnv sampleCfg (some true) rfl (by decide)⟩

/-- The catalog `create_table` call that `create_log_format_tables` builds
for one log source (written with a harmless default so it is total; under
the lookup-success hypothesis the default is never used). -/
def glueExpectedCall (env : Env) (cfg : Config) (db pre log : String) : GlueCall :=
  GlueCall.createTable db
    { name := pre ++ log,
      columns := (sortedKeys (env.sanitizeKeys
        (((cfg.logs.lookup (replaceFirstUnderscore log)).getD
          { schema := [], envelopeKeys := [] }).schema))).map (fun k => (k, "string")) }

/-- String concatenation is left-cancellative. -/
theorem string_append_left_cancel {a b c : String} (h : a ++ b = a ++ c) : b = c := by
  have hd := congrArg String.data h
  simp only [String.data_append] at hd
  exact String.ext (List.append_cancel_left hd)

/-- Characterization of the `create_log_format_tables` loop when every
enabled log has a configuration entry: it produces exactly one catalog
`create_table` call per not-yet-catalogued log, in order, and no error. -/
theorem glue_loop_spec (env : Env) (cfg : Config) (db pre : String)
    (catalogTables : List String) :
    ∀ logs : List String,
      (∀ log ∈ logs, (cfg.logs.lookup (replaceFirstUnderscore log)).isSome) →
      glue_loop env cfg db pre catalogTables logs =
        (logs.filterMap (fun log =>
          if (pre ++ log) ∈ catalogTables then none
          else some (glueExpectedCall env cfg db pre log)), none) := by
  intro logs
  induction logs with
  | nil => intro _; rfl
  | cons log rest ih =>
    intro h
    have hrest := ih (fun l hl => h l (List.mem_cons_of_mem log hl))
    simp only [glue_loop, List.filterMap_cons]
    by_cases hmem : (pre ++ log) ∈ catalogTables
    · rw [if_pos hmem, if_pos hmem]
      exact hrest
    · rw [if_neg hmem, if_neg hmem]
      obtain ⟨li, hli⟩ := Option.isSome_iff_exists.mp (h log (List.mem_cons_self log rest))
      rw [hli]
      dsimp only
      rw [hrest]
      unfold glueExpectedCall
      rw [hli]
      rfl

/-- C9: under the invariant that every enabled log source has a
configuration entry (`load_enabled_log_sources` derives the former from the
latter), `create_log_format_tables` lists the catalog tables exactly once
and first; a log whose prefixed name is already catalogued triggers no
catalog `create_table` call for that name; every other log triggers exactly
the call whose columns are the sanitized schema keys in lexicographic order,
each typed `string`; and the run returns `True`. -/
theorem create_log_format_tables_spec (env : Env) (cfg : Config)
    (hlog : ∀ log ∈ env.enabledLogs,
      (cfg.logs.lookup (replaceFirstUnderscore log)).isSome) :
    (create_log_format_tables env cfg).result = .ok true ∧
    (create_log_format_tables env cfg).gcalls =
      GlueCall.getTables cfg.catalogName ::
        env.enabledLogs.filterMap (fun log =>
          if (cfg.catalogTablePre ++ log) ∈ env.getTables then none
          else some (glueExpectedCall env cfg cfg.catalogName cfg.catalogTablePre log)) ∧
    ((create_log_format_tables env cfg).gcalls.countP
      (fun c => match c with | .getTables _ => true | _ => false)) = 1 ∧
    (∀ log ∈ env.enabledLogs, (cfg.catalogTablePre ++ log) ∈ env.getTables →
      ∀ db input, GlueCall.createTable db input ∈ (create_log_format_tables env cfg).gcalls →
        input.name ≠ cfg.catalogTablePre ++ log) ∧
    (∀ log ∈ env.enabledLogs, (cfg.catalogTablePre ++ log) ∉ env.getTables →
      ∀ li, cfg.logs.lookup (replaceFirstUnderscore log) = some li →
        GlueCall.createTable cfg.catalogName
          { name := cfg.catalogTablePre ++ log,
            columns := (sortedKeys (env.sanitizeKeys li.schema)).map
              (fun k => (k, "string")) } ∈ (create_log_format_tables env cfg).gcalls ∧
        List.Sorted (fun a b => strLe a b = true) (sortedKeys (env.sanitizeKeys li.schema)) ∧
        ∀ c ∈ (sortedKeys (env.sanitizeKeys li.schema)).map (fun k => (k, "string")),
          c.2 = "string") := by
  have hloop := glue_loop_spec env cfg cfg.catalogName cfg.catalogTablePre
    env.getTables env.enabledLogs hlog
  have hrun : create_log_format_tables env cfg =
      { result := .ok true,
        gcalls := GlueCall.getTables cfg.catalogName ::
          env.enabledLogs.filterMap (fun log =>
            if (cfg.catalogTablePre ++ log) ∈ env.getTables then none
            else some (glueExpectedCall env cfg cfg.catalogName cfg.catalogTablePre log)) } := by
    unfold create_log_format_tables
    dsimp only
    rw [hloop]
  refine ⟨by rw [hrun], by rw [hrun], ?_, ?_, ?_⟩
  · rw [hrun]
    dsimp only
    rw [List.countP_cons_of_pos _ _ (by rfl)]
    have hz : (env.enabledLogs.filterMap (fun log =>
        if (cfg.catalogTablePre ++ log) ∈ env.getTables then none
        else some (glueExpectedCall env cfg cfg.catalogName cfg.catalogTablePre log))).countP
        (fun c => match c with | .getTables _ => true | _ => false) = 0 := by
      rw [List.countP_eq_zero]
      intro c hc
      obtain ⟨log, _, hf⟩ := List.mem_filterMap.mp hc
      by_cases hmem : (cfg.catalogTablePre ++ log) ∈ env.getTables
      · rw [if_pos hmem] at hf
        cases hf
      · rw [if_neg hmem] at hf
        have : c = glueExpectedCall env cfg cfg.catalogName cfg.catalogTablePre log :=
          (Option.some.inj hf).symm
        rw [this]
        unfold glueExpectedCall
        simp
    rw [hz]
  · intro log hmem hpresent db input hin
    rw [hrun] at hin
    dsimp only at hin
    rcases List.mem_cons.mp hin with hhead | htail
    · cases hhead
    · obtain ⟨log2, hlog2, hf⟩ := List.mem_filterMap.mp htail
      by_cases hmem2 : (cfg.catalogTablePre ++ log2) ∈ env.getTables
      · rw [if_pos hmem2] at hf
        cases hf
      · rw [if_neg hmem2] at hf
        have hc : GlueCall.createTable db input =
            glueExpectedCall env cfg cfg.catalogName cfg.catalogTablePre log2 :=
          (Option.some.inj hf).symm
        unfold glueExpectedCall at hc
        have hname : input.name = cfg.catalogTablePre ++ log2 := by
          have := congrArg (fun c => match c with
            | GlueCall.createTable _ inp => inp.name
            | _ => "") hc
          simpa using this
        intro heq
        rw [heq] at hname
        have hlogeq : log = log2 := string_append_left_cancel hname
        rw [← hlogeq] at hmem2
        exact hmem2 hpresent
  · intro log hmem habs li hli
    refine ⟨?_, ?_, ?_⟩
    · rw [hrun]
      dsimp only
      apply List.mem_cons_of_mem
      apply List.mem_filterMap.mpr
      refine ⟨log, hmem, ?_⟩
      rw [if_neg habs]
      unfold glueExpectedCall
      rw [hli]
      rfl
    · exact List.sorted_insertionSort _ _
    · intro c hc
      obtain ⟨k, _, hk⟩ := List.mem_map.mp hc
      rw [← hk]

/-- Environment for the C9 witness: two enabled logs, one of which is
already catalogued. -/
def glueEnv : Env :=
  { sampleEnv with
    enabledLogs := ["a_log", "b_log"]
    getTables := ["pre_a_log"] }

/-- Configuration for the C9 witness. -/
def glueCfg : Config :=
  { sampleCfg with
    logs := [("a:log", { schema := [("z", .str "string"), ("a", .str "string")],
                         envelopeKeys := [] }),
             ("b:log", { schema := [("k", .str "integer")], envelopeKeys := [] })] }

/-- Witness for C9 at a concrete catalog-sync run. -/
theorem create_log_format_tables_spec_witness :
    (∀ log ∈ glueEnv.enabledLogs,
      (glueCfg.logs.lookup (replaceFirstUnderscore log)).isSome) ∧
    ((create_log_format_tables glueEnv glueCfg).result = .ok true ∧
     (create_log_format_tables glueEnv glueCfg).gcalls =
       GlueCall.getTables glueCfg.catalogName ::
         glueEnv.enabledLogs.filterMap (fun log =>
           if (glueCfg.catalogTablePre ++ log) ∈ glueEnv.getTables then none
           else some (glueExpectedCall glueEnv glueCfg glueCfg.catalogName
             glueCfg.catalogTablePre log)) ∧
     ((create_log_format_tables glueEnv glueCfg).gcalls.countP
       (fun c => match c with | .getTables _ => true | _ => false)) = 1 ∧
     (∀ log ∈ glueEnv.enabledLogs, (glueCfg.catalogTablePre ++ log) ∈ glueEnv.getTables →
       ∀ db input, GlueCall.createTable db input ∈
           (create_log_format_tables glueEnv glueCfg).gcalls →
         input.name ≠ glueCfg.catalogTablePre ++ log) ∧
     (∀ log ∈ glueEnv.enabledLogs, (glueCfg.catalogTablePre ++ log) ∉ glueEnv.getTables →
       ∀ li, glueCfg.logs.lookup (replaceFirstUnderscore log) = some li →
         GlueCall.createTable glueCfg.catalogName
           { name := glueCfg.catalogTablePre ++ log,
             columns := (sortedKeys (glueEnv.sanitizeKeys li.schema)).map
               (fun k => (k, "string")) } ∈
           (create_log_format_tables glueEnv glueCfg).gcalls ∧
         List.Sorted (fun a b => strLe a b = true)
           (sortedKeys (glueEnv.sanitizeKeys li.schema)) ∧
         ∀ c ∈ (sortedKeys (glueEnv.sanitizeKeys li.schema)).map (fun k => (k, "string")),
           c.2 = "string")) :=
  ⟨by decide, create_log_format_tables_spec glueEnv glueCfg (by decide)⟩

/-- Witness for C8 at a concrete run. -/
theorem create_table_config_update_iff_witness :
    ((create_table sampleEnv "my_log" "bkt" sampleCfg []).configWritten = true ↔
      ((create_table sampleEnv "my_log" "bkt" sampleCfg []).result = .ok true ∧
        "my_log" ≠ "alerts" ∧ "bkt" ∉ sampleCfg.buckets.map Prod.fst)) ∧
    ((create_table sampleEnv "my_log" "bkt" sampleCfg []).configWritten = true →
      (create_table sampleEnv "my_log" "bkt" sampleCfg []).config =
        { sampleCfg with buckets := sampleCfg.buckets ++ [("bkt", "data")] } ∧
      (create_table sampleEnv "my_log" "bkt" sampleCfg []).config ≠ sampleCfg) ∧
    ((create_table sampleEnv "my_log" "bkt" sampleCfg []).configWritten = false →
      (create_table sampleEnv "my_log" "bkt" sampleCfg []).config = sampleCfg) :=
  create_table_config_update_iff sampleEnv "my_log" "bkt" sampleCfg []
